import Mathlib

/-!
Verification development for the template-explorer backend
(src/backend/main.py).  The Python source is shallowly embedded: pure
control flow is translated directly, Python exceptions become an
explicit error type threaded through the Except monad, and the external
collaborators (filesystem storage, the jinja2 renderer, the OpenAI
model and the two exec-based dynamic-code hooks) are modelled as oracle
functions collected in an Env structure, since their behaviour is not
part of this repository.  Error messages are abbreviated (no
punctuation beyond plain words) but keep enough text to identify the
failure kind.
-/

/-- Python runtime values as they appear in this program: JSON-decoded
dataset records (None, bool, int, str, list, dict) plus pydantic model
instances (pyd), which are the only values carrying a model_dump
method.  JSON numbers are modelled as integers; no claim depends on
float arithmetic. -/
inductive PyVal where
  | null : PyVal
  | bool (b : Bool) : PyVal
  | num (n : Int) : PyVal
  | str (s : String) : PyVal
  | arr (items : List PyVal) : PyVal
  | dict (fields : List (String × PyVal)) : PyVal
  | pyd (fields : List (String × PyVal)) : PyVal

/-- Python exception kinds raised by the code paths under verification.
valueError and httpException are the two kinds caught at the run_llm
boundary (main.py line 449); every other kind escapes it. -/
inductive PyErr where
  | valueError (msg : String) : PyErr
  | httpException (code : Nat) (detail : String) : PyErr
  | attributeError (msg : String) : PyErr
  | unboundLocalError (name : String) : PyErr
  | templateError (msg : String) : PyErr
  | apiError (msg : String) : PyErr
deriving DecidableEq

/-- Python str(e) on an exception, as stored into error fields. -/
def PyErr.msg : PyErr → String
  | .valueError m => m
  | .httpException c d => toString c ++ ": " ++ d
  | .attributeError m => m
  | .unboundLocalError n => "local variable " ++ n ++ " referenced before assignment"
  | .templateError m => m
  | .apiError m => m

/-- Python truthiness of a value, as used by the checks on lines 341,
365 and 385 of main.py. -/
def PyVal.truthy : PyVal → Bool
  | .null => false
  | .bool b => b
  | .num n => n != 0
  | .str s => s != ""
  | .arr items => !items.isEmpty
  | .dict fields => !fields.isEmpty
  | .pyd _ => true

/-- Python truthiness of an optional string field (None and the empty
string are falsy). -/
def strOptTruthy : Option String → Bool
  | none => false
  | some s => s != ""

/-- Abbreviated Python str() of a value, used only where the source
calls str(parsed_response) on line 391; no claim inspects its text. -/
def PyVal.pyStr : PyVal → String
  | .null => "None"
  | .bool true => "True"
  | .bool false => "False"
  | .num n => toString n
  | .str s => s
  | .arr _ => "<list>"
  | .dict _ => "<dict>"
  | .pyd _ => "<model>"

/-- The model_dump() attribute access on main.py line 410: only
pydantic model instances have it; every other value raises
AttributeError. -/
def modelDump : PyVal → Except PyErr PyVal
  | .pyd fields => .ok (.dict fields)
  | .null => .error (.attributeError "NoneType object has no attribute model_dump")
  | .bool _ => .error (.attributeError "bool object has no attribute model_dump")
  | .num _ => .error (.attributeError "int object has no attribute model_dump")
  | .str _ => .error (.attributeError "str object has no attribute model_dump")
  | .arr _ => .error (.attributeError "list object has no attribute model_dump")
  | .dict _ => .error (.attributeError "dict object has no attribute model_dump")

/-- Binding scope (DataSourceBinding.scope, main.py line 69). -/
inductive Scope where
  | record : Scope
  | global : Scope
deriving DecidableEq

/-- Parser strategy tag (ParserSpec.type, main.py line 62). -/
inductive ParserType where
  | raw : ParserType
  | structured : ParserType
  | python : ParserType
deriving DecidableEq

/-- ParserSpec (main.py lines 61 to 64). -/
structure ParserSpec where
  type : ParserType := .raw
  pydantic_model : Option String := none
  python_code : Option String := none
deriving DecidableEq

/-- DataSourceBinding (main.py lines 66 to 70).  row is a Python int
(possibly negative) or None. -/
structure DataSourceBinding where
  source_id : String
  context_key : String
  scope : Scope
  row : Option Int := none
deriving DecidableEq

/-- LLMConfig (main.py lines 56 to 59).  The temperature float is
omitted: the embedding never reads it, the model call being an
oracle. -/
structure LLMConfig where
  provider : String := "openai"
  model : String := "gpt-3.5-turbo"
deriving DecidableEq

/-- RunRequest (main.py lines 72 to 77). -/
structure RunRequest where
  template_id : Option String := none
  template_text : Option String := none
  datasource_bindings : List DataSourceBinding
  parser : Option ParserSpec := none
  llm : Option LLMConfig := none

/-- The dict returned by execute_llm_run on success (main.py line
410), after the model_dump call. -/
structure RunOutput where
  raw_response : String
  parsed_response : PyVal

/-- RunResponse as produced by the run_llm endpoint (main.py lines 79
to 82 and 444 to 450). -/
structure RunResponse where
  raw_response : String
  parsed_response : Option PyVal := none
  error : Option String := none

/-- Render context: a Python dict from variable name to value, kept as
an insertion-ordered association list exactly as a dict is. -/
abbrev Ctx := List (String × PyVal)

/-- Association-list lookup: the value stored for a key, if any
(Python dict indexing / .get). -/
def alistGet {α : Type} (l : List (String × α)) (k : String) : Option α :=
  (l.find? (fun p => p.1 == k)).map (fun p => p.2)

/-- Association-list update with Python dict semantics: an existing
key keeps its position and gets the new value, a new key is appended
at the end. -/
def alistSet {α : Type} (l : List (String × α)) (k : String) (v : α) : List (String × α) :=
  if l.any (fun p => p.1 == k) then
    l.map (fun p => if p.1 == k then (k, v) else p)
  else
    l ++ [(k, v)]

/-- Python dict splice as on main.py line 374: entries of the second
dict are merged into the first, later entries winning. -/
def spliceDict (ctx : Ctx) (fields : List (String × PyVal)) : Ctx :=
  fields.foldl (fun acc p => alistSet acc p.1 p.2) ctx

/-- External collaborators, modelled as oracles.  templates maps a
template id to its file content (find plus read, main.py lines 268 to
273 and 345); datasets maps a dataset id to its loaded record list
(find plus load, lines 198 to 226); render is the jinja2 from_string
plus render pair (lines 379 to 381), whose failures are jinja2
TemplateError kinds; complete is llm.complete(prompt).text;
createModel is create_model_from_string (lines 412 to 424), whose own
failures are ValueErrors, returning an opaque model handle;
structuredPredict is llm.structured_predict, returning a pydantic
value; customPython is execute_custom_python (lines 426 to 441),
whose own failures are ValueErrors. -/
structure Env where
  templates : String → Option String
  datasets : String → Option (List PyVal)
  render : String → Ctx → Except PyErr String
  complete : String → Except PyErr String
  createModel : String → Except PyErr String
  structuredPredict : String → String → Except PyErr PyVal
  customPython : String → String → Except PyErr PyVal

/-- Resolution of one binding to its context value (main.py lines 352
to 371).  Returns ok none in the one path that assigns nothing: a
record-scope binding, no (truthy) current record, and an empty
dataset. -/
def resolveBinding (env : Env) (record : Option PyVal) (b : DataSourceBinding) :
    Except PyErr (Option PyVal) :=
  match env.datasets b.source_id with
  | none => .error (.valueError ("Dataset with ID " ++ b.source_id ++ " not found."))
  | some data =>
    match b.scope with
    | .global =>
      let row : Int := b.row.getD 0
      if h : 0 ≤ row ∧ row < (data.length : Int) then
        .ok (some (data.get ⟨row.toNat, by omega⟩))
      else
        .error (.valueError "Invalid row index for global binding.")
    | .record =>
      match record with
      | some r => if r.truthy then .ok (some r) else .ok data.head?
      | none => .ok data.head?

/-- Merge of one resolved value into the context (main.py lines 373 to
376): empty key and dict value splice at top level, anything else is
assigned under the key. -/
def mergeBinding (ctx : Ctx) (key : String) (v : PyVal) : Ctx :=
  match v with
  | .dict fields => if key = "" then spliceDict ctx fields else alistSet ctx key (.dict fields)
  | other => alistSet ctx key other

/-- State of the context-building loop: the accumulated context and
the Python local variable context_value, which persists across loop
iterations and starts unbound (none). -/
structure BindState where
  ctx : Ctx
  cv : Option PyVal

/-- One iteration of the context-building loop (main.py lines 351 to
376), faithful to Python local-variable scoping: when a binding
resolves to nothing, context_value keeps its previous value, and if it
was never assigned the isinstance check on line 373 raises
UnboundLocalError. -/
def bindingStep (env : Env) (record : Option PyVal) (st : BindState) (b : DataSourceBinding) :
    Except PyErr BindState := do
  let v? ← resolveBinding env record b
  let cv := match v? with
    | some v => some v
    | none => st.cv
  match cv with
  | none => .error (.unboundLocalError "context_value")
  | some v => .ok ⟨mergeBinding st.ctx b.context_key v, some v⟩

/-- The context-building loop of execute_llm_run (main.py lines 350 to
376). -/
def buildContext (env : Env) (bs : List DataSourceBinding) (record : Option PyVal) :
    Except PyErr Ctx := do
  let st ← bs.foldlM (bindingStep env record) ⟨[], none⟩
  pure st.ctx

/-- The structured branch of the parser dispatch (main.py lines 387 to
399): model compilation and structured_predict, any failure rewrapped
as a ValueError. -/
def structuredBranch (env : Env) (code prompt : String) : Except PyErr (String × PyVal) :=
  match (do
      let m ← env.createModel code
      env.structuredPredict m prompt : Except PyErr PyVal) with
  | .error e => .error (.valueError ("Pydantic model parsing failed: " ++ e.msg))
  | .ok p => .ok (p.pyStr, p)

/-- The python branch of the parser dispatch (main.py lines 400 to
405): a plain completion, then the custom transform, whose failure is
rewrapped as a ValueError; the completion itself is not wrapped. -/
def pythonBranch (env : Env) (code prompt : String) : Except PyErr (String × PyVal) := do
  let raw ← env.complete prompt
  match env.customPython code raw with
  | .error e => .error (.valueError ("Custom Python parsing failed: " ++ e.msg))
  | .ok v => pure (raw, v)

/-- The raw branch of the parser dispatch (main.py lines 406 to 408):
parsed_response is the completion text itself. -/
def rawBranch (env : Env) (prompt : String) : Except PyErr (String × PyVal) := do
  let raw ← env.complete prompt
  pure (raw, .str raw)

/-- Parser dispatch (main.py lines 385 to 408).  The guards are the
Python truthiness tests on the optional code fields: a structured spec
without pydantic_model, or a python spec without python_code, falls
through to the raw branch. -/
def runParser (env : Env) (spec : ParserSpec) (prompt : String) :
    Except PyErr (String × PyVal) :=
  if spec.type = .structured ∧ strOptTruthy spec.pydantic_model = true then
    structuredBranch env (spec.pydantic_model.getD "") prompt
  else if spec.type = .python ∧ strOptTruthy spec.python_code = true then
    pythonBranch env (spec.python_code.getD "") prompt
  else
    rawBranch env prompt

/-- execute_llm_run (main.py lines 339 to 410).  Step order matches
the source: template content, context, render, the request.llm.model
attribute access (an AttributeError when llm is None), parser
dispatch, then the model_dump call of line 410 on the parsed value. -/
def execute_llm_run (env : Env) (req : RunRequest) (record : Option PyVal) :
    Except PyErr RunOutput := do
  let template_content ←
    match req.template_id with
    | some tid =>
      if tid = "" then pure (req.template_text.getD "")
      else
        match env.templates tid with
        | none => Except.error (.valueError "Template not found")
        | some c => pure c
    | none => pure (req.template_text.getD "")
  let ctx ← buildContext env req.datasource_bindings record
  let prompt ← env.render template_content ctx
  match req.llm with
  | none => Except.error (.attributeError "NoneType object has no attribute model")
  | some _ => do
    let spec := req.parser.getD {}
    let pair ← runParser env spec prompt
    let dumped ← modelDump pair.2
    pure ⟨pair.1, dumped⟩

/-- Exception kinds caught by the run_llm endpoint boundary (main.py
line 449): ValueError and HTTPException only. -/
def PyErr.caughtByRunLlm : PyErr → Bool
  | .valueError _ => true
  | .httpException _ _ => true
  | _ => false

/-- The run_llm endpoint (main.py lines 444 to 450): caught failures
become a RunResponse with an error field; any other exception
propagates to the transport layer, modelled as an error result. -/
def run_llm (env : Env) (req : RunRequest) : Except PyErr RunResponse :=
  match execute_llm_run env req none with
  | .ok r => .ok ⟨r.raw_response, some r.parsed_response, none⟩
  | .error e =>
    if e.caughtByRunLlm then .ok ⟨"", none, some e.msg⟩
    else .error e

/-- One entry of a job results list (main.py lines 473 and 475): the
input record together with either the splatted run result or an error
string. -/
structure ResultEntry where
  input_record : PyVal
  run_result : Option RunOutput
  error : Option String

/-- A job record in the in-memory job store (main.py line 454). -/
structure Job where
  status : String
  progress : Nat
  total : Nat
  results : List ResultEntry
  error : Option String

/-- The job record written by the first statement of
batch_process_task (main.py line 454). -/
def initialJob : Job :=
  { status := "running", progress := 0, total := 0, results := [], error := none }

/-- The per-record body of the batch loop (main.py lines 470 to 475):
execute_llm_run with the current record, any exception caught and
recorded as the entry error. -/
def mkEntry (env : Env) (req : RunRequest) (r : PyVal) : ResultEntry :=
  match execute_llm_run env req (some r) with
  | .ok res => ⟨r, some res, none⟩
  | .error e => ⟨r, none, some e.msg⟩

/-- The batch loop of batch_process_task (main.py lines 470 to 480) as
the sequence of job-store snapshots it produces: per record, first the
results append (line 473 or 475), then the progress update (line 477);
after the loop, the status update to completed (line 480).  The
time.sleep call changes no state and is omitted. -/
def batchLoop (env : Env) (req : RunRequest) :
    List PyVal → Nat → Job → List Job
  | [], _, j => [{ j with status := "completed" }]
  | r :: rs, i, j =>
    let j1 := { j with results := j.results ++ [mkEntry env req r] }
    let j2 := { j1 with progress := i + 1 }
    j1 :: j2 :: batchLoop env req rs (i + 1) j2

/-- batch_process_task (main.py lines 453 to 484) as the sequence of
job-store snapshots for its job id, one per atomic store mutation: the
initialisation, then either the two failure-branch writes (status
failed, then the top-level error) when setup fails, or the total
write followed by the loop snapshots. -/
def batch_process_task (env : Env) (req : RunRequest) : List Job :=
  initialJob ::
    match req.datasource_bindings.find? (fun b => b.scope == Scope.record) with
    | none =>
      let jf := { initialJob with status := "failed" }
      [jf, { jf with error := some "Batch run requires at least one record scoped dataset." }]
    | some b =>
      match env.datasets b.source_id with
      | none =>
        let jf := { initialJob with status := "failed" }
        [jf, { jf with error := some ("Record-scoped dataset " ++ b.source_id ++ " not found.") }]
      | some records =>
        let j1 := { initialJob with total := records.length }
        j1 :: batchLoop env req records 0 j1

/-- The process-wide job registry (main.py line 29), keyed by job
id. -/
abbrev JobStore := List (String × Job)

/-- The run_batch endpoint (main.py lines 487 to 491).  It generates a
job id and schedules batch_process_task as a FastAPI background task;
background tasks run only after the response has been sent, so the
endpoint itself returns the id without mutating the job store.  The
fresh uuid is a parameter. -/
def run_batch (store : JobStore) (jid : String) : JobStore × String :=
  (store, jid)

/-- The body of the get_job_status endpoint (main.py lines 493 to
498). -/
structure JobStatus where
  status : String
  progress : Nat
  total : Nat
  error : Option String

/-- get_job_status (main.py lines 493 to 498): a 404 HTTPException for
an unknown id, otherwise the status snapshot. -/
def get_job_status (store : JobStore) (jid : String) : Except PyErr JobStatus :=
  match alistGet store jid with
  | none => .error (.httpException 404 "Job not found")
  | some j => .ok ⟨j.status, j.progress, j.total, j.error⟩

/-- get_job_result (main.py lines 500 to 507): a 404 HTTPException for
an unknown id, a 400 when the job is not completed, otherwise the
results. -/
def get_job_result (store : JobStore) (jid : String) : Except PyErr (List ResultEntry) :=
  match alistGet store jid with
  | none => .error (.httpException 404 "Job not found")
  | some j =>
    if j.status = "completed" then .ok j.results
    else .error (.httpException 400 "Job is not yet complete.")

/-- Generic first-of-two-options combinator used to state lookup
characterisations of the context merge. -/
def orFallback {α : Type} (a b : Option α) : Option α :=
  match a with
  | some x => some x
  | none => b

/-- Last value stored for a key in a field list, matching which value
a Python dict built from those fields in order would hold. -/
def lookupLast (fields : List (String × PyVal)) (k : String) : Option PyVal :=
  fields.foldl (fun acc p => if p.1 == k then some p.2 else acc) none

/-- The contribution a single merged binding makes to the context at
key k: a spliced dict contributes its own entry for k, any other
merge contributes the whole value exactly at context_key. -/
def contribValue (key : String) (v : PyVal) (k : String) : Option PyVal :=
  match v with
  | .dict fields =>
    if key = "" then lookupLast fields k
    else if key = k then some (.dict fields) else none
  | other => if key = k then some other else none

/-- Concrete oracle environment for solo-run evaluations: rendering
echoes the template text, the model completes every prompt with the
text ok, storage is empty, and the dynamic-code hooks are unused. -/
def envSolo : Env where
  templates := fun _ => none
  datasets := fun _ => none
  render := fun t _ => .ok t
  complete := fun _ => .ok "ok"
  createModel := fun _ => .error (.valueError "unused")
  structuredPredict := fun _ _ => .error (.apiError "unused")
  customPython := fun _ _ => .error (.valueError "unused")

/-- Variant of envSolo whose jinja2 rendering oracle fails with a
template error, a kind outside the except clause of run_llm. -/
def envRenderFail : Env :=
  { envSolo with render := fun _ _ => .error (.templateError "unexpected end of template") }

/-- Solo run request with an inline template, no bindings and the
default (absent) parser spec. -/
def reqSoloRaw : RunRequest where
  template_text := some "hi"
  datasource_bindings := []
  llm := some {}

/-- Solo run request carrying an explicit raw parser spec. -/
def reqExplicitRaw : RunRequest where
  template_text := some "hi"
  datasource_bindings := []
  parser := some {}
  llm := some {}

/-- Oracle environment holding an empty dataset and a one-record
dataset, for the empty-dataset record-binding evaluations. -/
def envEmptyDs : Env :=
  { envSolo with datasets := fun id =>
      if id = "empty" then some []
      else if id = "d1" then some [PyVal.dict [("a", PyVal.num 1)]]
      else none }

/-- Solo run request whose single binding is record scoped over the
empty dataset. -/
def reqEmptyRecord : RunRequest where
  template_text := some "t"
  datasource_bindings := [⟨"empty", "k", Scope.record, none⟩]
  llm := some {}

/-- Oracle environment with two small structured datasets, for the
context-merge evaluations. -/
def envMerge : Env :=
  { envSolo with datasets := fun id =>
      if id = "d1" then some [PyVal.dict [("a", PyVal.num 1)]]
      else if id = "d2" then some [PyVal.dict [("a", PyVal.num 2), ("b", PyVal.num 3)]]
      else none }

/-- Oracle environment with a two-record dataset driving the batch
evaluations. -/
def envBatch : Env :=
  { envSolo with datasets := fun id =>
      if id = "db" then some [PyVal.str "r1", PyVal.str "r2"] else none }

/-- Batch request over the two-record dataset with one record-scoped
binding. -/
def reqBatch : RunRequest where
  template_text := some "t"
  datasource_bindings := [⟨"db", "k", Scope.record, none⟩]
  llm := some {}

/-- Concrete job store holding one completed job, for the job-query
evaluations. -/
def storeW : JobStore :=
  [("done", { status := "completed", progress := 1, total := 1, results := [], error := none })]

/-- Resolution of a whole binding list when every binding yields a
fresh value: none of them errors and none hits the silent
no-contribution path.  Used as the hypothesis of the context-merge
characterisation. -/
def resolveAll (env : Env) (record : Option PyVal) : List DataSourceBinding → Option (List PyVal)
  | [] => some []
  | b :: bs =>
    match resolveBinding env record b with
    | .ok (some v) => (resolveAll env record bs).map (fun vs => v :: vs)
    | _ => none

theorem alistGet_nil {α : Type} (k : String) : alistGet ([] : List (String × α)) k = none := rfl

theorem alistGet_cons {α : Type} (p : String × α) (l : List (String × α)) (k : String) :
    alistGet (p :: l) k = if p.1 == k then some p.2 else alistGet l k := by
  by_cases h : p.1 == k <;> simp [alistGet, List.find?_cons, h]

theorem alistGet_append {α : Type} (l1 l2 : List (String × α)) (k : String) :
    alistGet (l1 ++ l2) k = orFallback (alistGet l1 k) (alistGet l2 k) := by
  induction l1 with
  | nil => simp [alistGet, orFallback]
  | cons p l ih =>
    by_cases h : p.1 == k <;> simp [alistGet_cons, h, ih, orFallback]

theorem alistGet_eq_none_of_any_false {α : Type} (l : List (String × α)) (k : String)
    (h : l.any (fun p => p.1 == k) = false) : alistGet l k = none := by
  induction l with
  | nil => rfl
  | cons p l ih =>
    simp only [List.any_cons, Bool.or_eq_false_iff] at h
    rw [alistGet_cons, if_neg (by simp [h.1]), ih h.2]

theorem alistGet_map_replace {α : Type} (l : List (String × α)) (k k' : String) (v : α) :
    alistGet (l.map (fun p => if p.1 == k then (k, v) else p)) k' =
      if k' = k then (if l.any (fun p => p.1 == k) then some v else none)
      else alistGet l k' := by
  induction l with
  | nil => by_cases h : k' = k <;> simp [alistGet, h]
  | cons p l ih =>
    simp only [beq_iff_eq] at ih
    by_cases hpk : p.1 = k
    · by_cases hk' : k' = k
      · subst hk'
        simp [alistGet_cons, beq_iff_eq, hpk, ih]
      · have hkk' : ¬ k = k' := fun hc => hk' hc.symm
        simp [alistGet_cons, beq_iff_eq, hpk, hkk', ih, hk']
    · have hb : (p.1 == k) = false := by simp [hpk]
      by_cases hk' : k' = k
      · subst hk'
        simp [alistGet_cons, beq_iff_eq, hpk, hb, ih]
        cases hany : l.any (fun p => p.1 == k') <;> simp [hany, hb]
      · simp [alistGet_cons, beq_iff_eq, hpk, hb, ih, hk']

theorem orFallback_none_left {α : Type} (b : Option α) : orFallback none b = b := rfl

theorem orFallback_none_right {α : Type} (a : Option α) : orFallback a none = a := by
  cases a <;> rfl

theorem orFallback_assoc {α : Type} (a b c : Option α) :
    orFallback a (orFallback b c) = orFallback (orFallback a b) c := by
  cases a <;> rfl

theorem alistGet_alistSet {α : Type} (l : List (String × α)) (k k' : String) (v : α) :
    alistGet (alistSet l k v) k' = if k' = k then some v else alistGet l k' := by
  unfold alistSet
  by_cases han : l.any (fun p => p.1 == k)
  · rw [if_pos han, alistGet_map_replace, han]
    simp
  · rw [if_neg han, alistGet_append]
    rw [Bool.not_eq_true] at han
    by_cases hk' : k' = k
    · subst hk'
      rw [alistGet_eq_none_of_any_false l k' han, orFallback_none_left, if_pos rfl]
      simp [alistGet_cons]
    · have hb : (k == k') = false := by
        simp only [beq_eq_false_iff_ne, ne_eq]
        exact fun hc => hk' hc.symm
      rw [if_neg hk']
      have h1 : alistGet [(k, v)] k' = none := by
        simp [alistGet_cons, hb, alistGet_nil]
      rw [h1, orFallback_none_right]

theorem lookupLast_foldl_acc (fields : List (String × PyVal)) (k : String)
    (acc : Option PyVal) :
    fields.foldl (fun a p => if p.1 == k then some p.2 else a) acc =
      orFallback (lookupLast fields k) acc := by
  induction fields generalizing acc with
  | nil => simp [lookupLast, orFallback]
  | cons f fs ih =>
    have hcons : lookupLast (f :: fs) k =
        orFallback (lookupLast fs k) (if f.1 == k then some f.2 else none) := by
      show fs.foldl _ (if f.1 == k then some f.2 else none) = _
      exact ih _
    rw [List.foldl_cons, ih, hcons]
    cases lookupLast fs k <;> by_cases hf : f.1 == k <;> simp [orFallback, hf]

theorem alistGet_spliceDict (ctx : Ctx) (fields : List (String × PyVal)) (k : String) :
    alistGet (spliceDict ctx fields) k =
      orFallback (lookupLast fields k) (alistGet ctx k) := by
  induction fields generalizing ctx with
  | nil => simp [spliceDict, lookupLast, orFallback]
  | cons f fs ih =>
    have hcons : lookupLast (f :: fs) k =
        orFallback (lookupLast fs k) (if f.1 == k then some f.2 else none) := by
      show fs.foldl _ (if f.1 == k then some f.2 else none) = _
      exact lookupLast_foldl_acc fs k _
    show alistGet (spliceDict (alistSet ctx f.1 f.2) fs) k = _
    rw [ih, alistGet_alistSet, hcons]
    cases hlk : lookupLast fs k
    · rw [orFallback_none_left, orFallback_none_left]
      by_cases hf : f.1 = k
      · rw [if_pos hf.symm, if_pos (by simp [hf])]
        rfl
      · rw [if_neg (fun hc => hf hc.symm), if_neg (by simp [hf])]
        rfl
    · simp [orFallback]

theorem alistGet_mergeBinding (ctx : Ctx) (key : String) (v : PyVal) (k : String) :
    alistGet (mergeBinding ctx key v) k =
      orFallback (contribValue key v k) (alistGet ctx k) := by
  cases v
  case dict fields =>
    by_cases hkey : key = ""
    · simp [mergeBinding, contribValue, hkey, alistGet_spliceDict]
    · simp only [mergeBinding, contribValue, if_neg hkey]
      rw [alistGet_alistSet]
      by_cases hk : k = key
      · simp [hk, orFallback]
      · have hkk : ¬ key = k := fun hc => hk hc.symm
        simp [hk, hkk, orFallback]
  all_goals
    simp only [mergeBinding, contribValue]
    rw [alistGet_alistSet]
    by_cases hk : k = key
    · simp [hk, orFallback]
    · have hkk : ¬ key = k := fun hc => hk hc.symm
      simp [hk, hkk, orFallback]

theorem findSome?_concat {α β : Type} (f : α → Option β) (l : List α) (x : α) :
    List.findSome? f (l ++ [x]) = orFallback (List.findSome? f l) (f x) := by
  induction l with
  | nil =>
    cases hfx : f x <;> simp [List.findSome?, hfx, orFallback]
  | cons a l ih =>
    cases hfa : f a <;> simp [List.findSome?_cons, hfa, ih, orFallback]

theorem foldlM_bindingStep_ok (env : Env) (record : Option PyVal) :
    ∀ (bs : List DataSourceBinding) (vs : List PyVal) (st : BindState),
      resolveAll env record bs = some vs →
      ∃ st2, bs.foldlM (bindingStep env record) st = .ok st2 ∧
        ∀ k, alistGet st2.ctx k =
          orFallback
            (((bs.zip vs).reverse).findSome? (fun p => contribValue p.1.context_key p.2 k))
            (alistGet st.ctx k) := by
  intro bs
  induction bs with
  | nil =>
    intro vs st h
    simp only [resolveAll, Option.some_inj] at h
    subst h
    exact ⟨st, rfl, fun k => by simp [List.findSome?, orFallback]⟩
  | cons b bs ih =>
    intro vs st h
    simp only [resolveAll] at h
    split at h
    case h_1 v hfb =>
      cases hrest : resolveAll env record bs with
      | none => rw [hrest] at h; simp at h
      | some vs2 =>
        rw [hrest] at h
        simp at h
        subst h
        have hstep : bindingStep env record st b =
            .ok ⟨mergeBinding st.ctx b.context_key v, some v⟩ := by
          simp only [bindingStep, hfb]
          rfl
        obtain ⟨st2, hfold, hget⟩ :=
          ih vs2 ⟨mergeBinding st.ctx b.context_key v, some v⟩ hrest
        refine ⟨st2, ?_, ?_⟩
        · rw [List.foldlM_cons, hstep]
          exact hfold
        · intro k
          rw [hget k]
          have hmb : alistGet (mergeBinding st.ctx b.context_key v) k =
              orFallback (contribValue b.context_key v k) (alistGet st.ctx k) :=
            alistGet_mergeBinding st.ctx b.context_key v k
          rw [hmb, orFallback_assoc]
          congr 1
          have hzip : ((b :: bs).zip (v :: vs2)).reverse =
              (bs.zip vs2).reverse ++ [(b, v)] := by
            rw [List.zip_cons_cons, List.reverse_cons]
          rw [hzip, findSome?_concat]
    case h_2 => simp at h

theorem batchLoop_ne_nil (env : Env) (req : RunRequest) (rs : List PyVal) (i : Nat) (j : Job) :
    batchLoop env req rs i j ≠ [] := by
  cases rs <;> simp [batchLoop]

theorem batchLoop_head_progress (env : Env) (req : RunRequest) (rs : List PyVal) (i : Nat)
    (j x : Job) (hx : (batchLoop env req rs i j).head? = some x) : x.progress = j.progress := by
  cases rs <;> simp [batchLoop] at hx <;> subst hx <;> rfl

theorem getLast?_cons_of_ne_nil {α : Type} (a : α) {l : List α} (h : l ≠ []) :
    (a :: l).getLast? = l.getLast? := by
  cases l with
  | nil => exact absurd rfl h
  | cons b t => exact List.getLast?_cons_cons

theorem batchLoop_getLast (env : Env) (req : RunRequest) :
    ∀ (rs : List PyVal) (i : Nat) (j : Job), j.progress = i →
      (batchLoop env req rs i j).getLast? =
        some { j with status := "completed",
                      results := j.results ++ rs.map (mkEntry env req),
                      progress := i + rs.length } := by
  intro rs
  induction rs with
  | nil =>
    intro i j hp
    obtain ⟨s, p, t, res, er⟩ := j
    simp only at hp
    subst hp
    simp [batchLoop]
  | cons r rs ih =>
    intro i j hp
    simp only [batchLoop]
    rw [List.getLast?_cons_cons,
        getLast?_cons_of_ne_nil _ (batchLoop_ne_nil env req rs (i + 1) _),
        ih (i + 1) _ rfl]
    obtain ⟨s, p, t, res, er⟩ := j
    simp [List.append_assoc]
    omega

theorem batchLoop_statuses (env : Env) (req : RunRequest) :
    ∀ (rs : List PyVal) (i : Nat) (j : Job), j.status = "running" →
      ∀ x ∈ batchLoop env req rs i j, x.status = "running" ∨ x.status = "completed" := by
  intro rs
  induction rs with
  | nil =>
    intro i j hs x hx
    simp [batchLoop] at hx
    subst hx
    right
    rfl
  | cons r rs ih =>
    intro i j hs x hx
    simp only [batchLoop, List.mem_cons] at hx
    rcases hx with h1 | h2 | h3
    · subst h1; left; exact hs
    · subst h2; left; exact hs
    · exact ih (i + 1)
        { status := j.status, progress := i + 1, total := j.total,
          results := j.results ++ [mkEntry env req r], error := j.error } hs x h3

theorem batchLoop_chain (env : Env) (req : RunRequest) :
    ∀ (rs : List PyVal) (i : Nat) (j : Job), j.progress = i →
      List.Chain' (fun a b => a.progress ≤ b.progress) (batchLoop env req rs i j) := by
  intro rs
  induction rs with
  | nil => intro i j _; exact List.chain'_singleton _
  | cons r rs ih =>
    intro i j hp
    simp only [batchLoop]
    rw [List.chain'_cons]
    refine ⟨?_, ?_⟩
    · show j.progress ≤ i + 1
      omega
    · rw [List.chain'_cons']
      refine ⟨?_, ih (i + 1) _ rfl⟩
      intro y hy
      have hyp : y.progress = i + 1 :=
        batchLoop_head_progress env req rs (i + 1) _ y (Option.mem_def.mp hy)
      show i + 1 ≤ y.progress
      omega

theorem batchLoop_invariants (env : Env) (req : RunRequest) :
    ∀ (rs : List PyVal) (i : Nat) (j : Job),
      j.status = "running" → j.progress = i → j.results.length = i →
      j.total = i + rs.length →
      ∀ x ∈ batchLoop env req rs i j,
        (x.results.length = x.progress ∨ x.results.length = x.progress + 1) ∧
        (x.status = "completed" → x.progress = x.total) := by
  intro rs
  induction rs with
  | nil =>
    intro i j hs hp hr ht x hx
    simp [batchLoop] at hx
    subst hx
    refine ⟨Or.inl ?_, fun _ => ?_⟩
    · show j.results.length = j.progress
      omega
    · show j.progress = j.total
      simp at ht
      omega
  | cons r rs ih =>
    intro i j hs hp hr ht x hx
    simp only [batchLoop, List.mem_cons] at hx
    rcases hx with h1 | h2 | h3
    · subst h1
      refine ⟨Or.inr ?_, fun hc => ?_⟩
      · show (j.results ++ [mkEntry env req r]).length = j.progress + 1
        simp [hr, hp]
      · exact absurd (hs ▸ hc : "running" = "completed") (by decide)
    · subst h2
      refine ⟨Or.inl ?_, fun hc => ?_⟩
      · show (j.results ++ [mkEntry env req r]).length = i + 1
        simp [hr]
      · exact absurd (hs ▸ hc : "running" = "completed") (by decide)
    · refine ih (i + 1)
        { status := j.status, progress := i + 1, total := j.total,
          results := j.results ++ [mkEntry env req r], error := j.error } hs rfl ?_ ?_ x h3
      · show (j.results ++ [mkEntry env req r]).length = i + 1
        simp [hr]
      · show j.total = (i + 1) + rs.length
        simp at ht
        omega

/-- C1: the claim that run_llm never lets an exception reach the
transport layer is refuted by the code: the except clause on main.py
line 449 catches only ValueError and HTTPException, so the
AttributeError raised by the model_dump call of line 410 on a
successful raw run, and any jinja2 template error raised while
rendering, both escape the endpoint.  envSolo completes every model
call successfully with the text ok, yet the solo run raises. -/
theorem run_llm_lets_uncaught_exceptions_escape :
    run_llm envSolo reqSoloRaw =
      .error (.attributeError "str object has no attribute model_dump") ∧
    run_llm envRenderFail reqSoloRaw =
      .error (.templateError "unexpected end of template") :=
  ⟨rfl, rfl⟩

/-- C2: the claim that a raw run succeeds whenever the model call
succeeds, with parsed_response equal to raw_response, is refuted by
the code: on main.py line 410 the raw branch leaves parsed_response a
plain string, whose model_dump attribute access raises
AttributeError.  Here the model call succeeds with the text ok and
the run still fails. -/
theorem raw_run_crashes_on_model_dump :
    envSolo.complete "hi" = .ok "ok" ∧
    execute_llm_run envSolo reqExplicitRaw none =
      .error (.attributeError "str object has no attribute model_dump") :=
  ⟨rfl, rfl⟩

/-- C3 counterexample: at the moment run_batch returns, the job store
does not yet hold a record for the returned job id, because the
store-initialising write is the first statement of the background
task, which FastAPI runs only after the response has been sent; a
status query in that window fails with the 404 JobNotFound error. -/
theorem submit_returns_before_job_registration :
    alistGet (run_batch [] "job-1").1 (run_batch [] "job-1").2 = none ∧
    get_job_status (run_batch [] "job-1").1 (run_batch [] "job-1").2 =
      .error (.httpException 404 "Job not found") :=
  ⟨rfl, rfl⟩

/-- C3 amended: the job record with status running and progress 0 is
the first store snapshot written by the background task, so a status
query made at any point from the task's first step onward succeeds. -/
theorem job_registered_at_task_start (env : Env) (req : RunRequest)
    (store : JobStore) (jid : String) :
    (batch_process_task env req).head? = some initialJob ∧
    initialJob.status = "running" ∧ initialJob.progress = 0 ∧
    get_job_status (alistSet store jid initialJob) jid =
      .ok ⟨"running", 0, 0, none⟩ := by
  refine ⟨rfl, rfl, rfl, ?_⟩
  unfold get_job_status
  rw [alistGet_alistSet, if_pos rfl]
  rfl

/-- C4: the claim that a record-scope binding over an existing empty
dataset silently contributes nothing in a solo run is refuted by the
code: the guarded assignment on main.py lines 370 to 371 leaves the
Python local context_value unassigned, so the isinstance check on
line 373 raises UnboundLocalError when the empty-dataset binding is
the first one, and when a previous binding did resolve, the empty
binding reuses that stale value and contributes it under its own
context key. -/
theorem empty_dataset_record_binding_crashes :
    execute_llm_run envEmptyDs reqEmptyRecord none =
      .error (.unboundLocalError "context_value") ∧
    run_llm envEmptyDs reqEmptyRecord =
      .error (.unboundLocalError "context_value") ∧
    buildContext envEmptyDs
        [⟨"d1", "g", Scope.global, none⟩, ⟨"empty", "k", Scope.record, none⟩] none =
      .ok [("g", PyVal.dict [("a", PyVal.num 1)]), ("k", PyVal.dict [("a", PyVal.num 1)])] :=
  ⟨rfl, rfl, rfl⟩

/-- C5: when every binding resolves to a fresh value, the context
loop of main.py lines 350 to 376 succeeds, and the value the final
context holds for any key is the contribution of the last binding
that touches that key, where an empty context_key with a dict value
contributes each of the dict entries individually and every other
binding contributes its whole value exactly at its context_key: the
merge is left to right and later bindings win on collisions. -/
theorem context_merge_left_to_right (env : Env) (record : Option PyVal)
    (bs : List DataSourceBinding) (vs : List PyVal)
    (hres : resolveAll env record bs = some vs) :
    ∃ ctx, buildContext env bs record = .ok ctx ∧
      ∀ k, alistGet ctx k =
        ((bs.zip vs).reverse).findSome? (fun p => contribValue p.1.context_key p.2 k) := by
  obtain ⟨st2, hfold, hget⟩ := foldlM_bindingStep_ok env record bs vs ⟨[], none⟩ hres
  refine ⟨st2.ctx, ?_, ?_⟩
  · unfold buildContext
    rw [hfold]
    rfl
  · intro k
    rw [hget k, alistGet_nil, orFallback_none_right]

/-- C5 witness: a three-binding list over envMerge, where the spliced
record binding overwrites the spliced global one on the shared key a
and the named binding lands under its own key. -/
theorem context_merge_left_to_right_witness :
    (resolveAll envMerge none
        [⟨"d1", "", Scope.global, none⟩, ⟨"d2", "", Scope.record, none⟩,
         ⟨"d1", "x", Scope.global, some 0⟩] =
      some [PyVal.dict [("a", PyVal.num 1)],
            PyVal.dict [("a", PyVal.num 2), ("b", PyVal.num 3)],
            PyVal.dict [("a", PyVal.num 1)]]) ∧
    (∃ ctx, buildContext envMerge
        [⟨"d1", "", Scope.global, none⟩, ⟨"d2", "", Scope.record, none⟩,
         ⟨"d1", "x", Scope.global, some 0⟩] none = .ok ctx ∧
      ∀ k, alistGet ctx k =
        (([⟨"d1", "", Scope.global, none⟩, ⟨"d2", "", Scope.record, none⟩,
           (⟨"d1", "x", Scope.global, some 0⟩ : DataSourceBinding)].zip
            [PyVal.dict [("a", PyVal.num 1)],
             PyVal.dict [("a", PyVal.num 2), ("b", PyVal.num 3)],
             PyVal.dict [("a", PyVal.num 1)]]).reverse).findSome?
          (fun p => contribValue p.1.context_key p.2 k)) :=
  ⟨rfl, context_merge_left_to_right envMerge none _ _ rfl⟩

/-- C6: a global-scope binding over an existing dataset resolves
independently of the current record, to the record at index row with
0 the default for an absent row, and fails with the invalid-row-index
ValueError exactly when that row is outside the interval from 0 to
the record count. -/
theorem global_binding_fixed_row (env : Env) (b : DataSourceBinding) (data : List PyVal)
    (hscope : b.scope = Scope.global) (hds : env.datasets b.source_id = some data) :
    (∀ rec rec' : Option PyVal, resolveBinding env rec b = resolveBinding env rec' b) ∧
    (∀ rec : Option PyVal, 0 ≤ b.row.getD 0 → b.row.getD 0 < (data.length : Int) →
      ∃ v, data.get? (b.row.getD 0).toNat = some v ∧
        resolveBinding env rec b = .ok (some v)) ∧
    (∀ rec : Option PyVal,
      (resolveBinding env rec b =
          .error (.valueError "Invalid row index for global binding.") ↔
        ¬ (0 ≤ b.row.getD 0 ∧ b.row.getD 0 < (data.length : Int)))) := by
  have hrb : ∀ rec : Option PyVal, resolveBinding env rec b =
      (if h : 0 ≤ b.row.getD 0 ∧ b.row.getD 0 < (data.length : Int) then
        .ok (some (data.get ⟨(b.row.getD 0).toNat, by omega⟩))
      else .error (.valueError "Invalid row index for global binding.")) := by
    intro rec
    simp only [resolveBinding, hds, hscope]
  refine ⟨fun rec rec' => by rw [hrb rec, hrb rec'], ?_, ?_⟩
  · intro rec h0 hlen
    rw [hrb rec, dif_pos ⟨h0, hlen⟩]
    refine ⟨data.get ⟨(b.row.getD 0).toNat, by omega⟩, ?_, rfl⟩
    exact List.get?_eq_get _
  · intro rec
    rw [hrb rec]
    by_cases h : 0 ≤ b.row.getD 0 ∧ b.row.getD 0 < (data.length : Int)
    · rw [dif_pos h]
      simp [h]
    · rw [dif_neg h]
      simp [h]

/-- C6 witness: a global binding with row 0 over the one-record
dataset d1 resolves to that record for two different current
records. -/
theorem global_binding_fixed_row_witness :
    (resolveBinding envMerge (some (PyVal.num 7)) ⟨"d1", "g", Scope.global, some 0⟩ =
      resolveBinding envMerge none ⟨"d1", "g", Scope.global, some 0⟩) ∧
    (∃ v, [PyVal.dict [("a", PyVal.num 1)]].get? 0 = some v ∧
      resolveBinding envMerge none ⟨"d1", "g", Scope.global, some 0⟩ = .ok (some v)) :=
  ⟨(global_binding_fixed_row envMerge ⟨"d1", "g", Scope.global, some 0⟩
      [PyVal.dict [("a", PyVal.num 1)]] rfl rfl).1 _ _,
   (global_binding_fixed_row envMerge ⟨"d1", "g", Scope.global, some 0⟩
      [PyVal.dict [("a", PyVal.num 1)]] rfl rfl).2.1 none (by decide) (by decide)⟩

/-- C7: once the batch setup of main.py lines 457 to 468 has
succeeded, the trace of the job never shows status failed, the final
state is completed with exactly one result entry per record, and a
record whose run raised has its failure recorded as an error inside
its own entry. -/
theorem batch_per_record_failure_isolation (env : Env) (req : RunRequest)
    (b : DataSourceBinding) (records : List PyVal)
    (hb : req.datasource_bindings.find? (fun x => x.scope == Scope.record) = some b)
    (hd : env.datasets b.source_id = some records) :
    ∃ jf, (batch_process_task env req).getLast? = some jf ∧
      jf.status = "completed" ∧
      jf.results = records.map (mkEntry env req) ∧
      jf.results.length = records.length ∧
      (∀ j ∈ batch_process_task env req, j.status ≠ "failed") ∧
      (∀ (i : Nat) (e : PyErr) (h : i < records.length),
        execute_llm_run env req (some (records.get ⟨i, h⟩)) = .error e →
        jf.results.get? i = some ⟨records.get ⟨i, h⟩, none, some e.msg⟩) := by
  have htr : batch_process_task env req =
      initialJob :: { initialJob with total := records.length } ::
        batchLoop env req records 0 { initialJob with total := records.length } := by
    simp only [batch_process_task, hb, hd]
  have hlast := batchLoop_getLast env req records 0
    { initialJob with total := records.length } rfl
  refine ⟨{ status := "completed", progress := records.length, total := records.length,
            results := records.map (mkEntry env req), error := none }, ?_, rfl, rfl, ?_, ?_, ?_⟩
  · rw [htr,
      getLast?_cons_of_ne_nil _ (List.cons_ne_nil _ _),
      getLast?_cons_of_ne_nil _ (batchLoop_ne_nil env req records 0 _),
      hlast]
    simp [initialJob]
  · exact List.length_map records (mkEntry env req)
  · intro j hj hfail
    rw [htr] at hj
    rcases List.mem_cons.mp hj with h1 | hj2
    · rw [h1] at hfail
      exact absurd (hfail : "running" = "failed") (by decide)
    rcases List.mem_cons.mp hj2 with h2 | h3
    · rw [h2] at hfail
      have h9 : ("running" : String) = "failed" := hfail
      exact absurd h9 (by decide)
    rcases batchLoop_statuses env req records 0 _ rfl j h3 with hr | hc
    · rw [hr] at hfail
      exact absurd hfail (by decide)
    · rw [hc] at hfail
      exact absurd hfail (by decide)
  · intro i e h hrun
    show (records.map (mkEntry env req)).get? i = _
    rw [List.get?_map, List.get?_eq_get h]
    have hrun2 : execute_llm_run env req (some records[i]) = Except.error e := hrun
    simp [mkEntry, hrun2]

/-- C7 witness: the two-record batch over envBatch completes with two
result entries and never fails. -/
theorem batch_per_record_failure_isolation_witness :
    ∃ jf, (batch_process_task envBatch reqBatch).getLast? = some jf ∧
      jf.status = "completed" ∧ jf.results.length = 2 := by
  obtain ⟨jf, h1, h2, _, h4, _, _⟩ :=
    batch_per_record_failure_isolation envBatch reqBatch
      ⟨"db", "k", Scope.record, none⟩ [PyVal.str "r1", PyVal.str "r2"] rfl rfl
  exact ⟨jf, h1, h2, h4⟩

/-- C8 counterexample: the claim that the number of appended result
entries equals progress at every observed instant once iteration has
started fails on the code, because main.py appends the result entry
on line 473 before incrementing progress on line 477: the snapshot at
trace index 2 of this concrete batch holds one result entry while
progress is still 0. -/
theorem batch_results_progress_lag :
    ¬ (∀ (i : Nat) (j : Job), (batch_process_task envBatch reqBatch).get? i = some j →
        1 ≤ j.results.length → j.results.length = j.progress) := by
  intro hclaim
  have h := hclaim 2
    ⟨"running", 0, 2,
     [⟨PyVal.str "r1", none, some "str object has no attribute model_dump"⟩], none⟩
    rfl (by decide)
  exact absurd h (by decide)

/-- C8 amended: along every trace of batch_process_task, progress is
monotonically non-decreasing, every completed snapshot has progress
equal to total, and the number of appended result entries is always
either progress or progress plus one, the latter only in the window
between a result append and the following progress increment. -/
theorem batch_progress_invariants (env : Env) (req : RunRequest) :
    List.Chain' (fun a b => a.progress ≤ b.progress) (batch_process_task env req) ∧
    (∀ j ∈ batch_process_task env req, j.status = "completed" → j.progress = j.total) ∧
    (∀ j ∈ batch_process_task env req,
      j.results.length = j.progress ∨ j.results.length = j.progress + 1) := by
  cases hfb : req.datasource_bindings.find? (fun x => x.scope == Scope.record) with
  | none =>
    have htr : batch_process_task env req =
        initialJob :: { initialJob with status := "failed" } ::
          [{ initialJob with
              status := "failed",
              error := some "Batch run requires at least one record scoped dataset." }] := by
      simp only [batch_process_task, hfb]
    rw [htr]
    refine ⟨?_, ?_, ?_⟩
    · rw [List.chain'_cons, List.chain'_cons]
      exact ⟨le_refl _, le_refl _, List.chain'_singleton _⟩
    · intro j hj hc
      rcases List.mem_cons.mp hj with h1 | hj2
      · subst h1
        exact absurd (show ("running" : String) = "completed" from hc) (by decide)
      rcases List.mem_cons.mp hj2 with h2 | hj3
      · subst h2
        exact absurd (show ("failed" : String) = "completed" from hc) (by decide)
      · rw [List.mem_singleton.mp hj3] at hc
        exact absurd (show ("failed" : String) = "completed" from hc) (by decide)
    · intro j hj
      rcases List.mem_cons.mp hj with h1 | hj2
      · subst h1; exact Or.inl rfl
      rcases List.mem_cons.mp hj2 with h2 | hj3
      · subst h2; exact Or.inl rfl
      · rw [List.mem_singleton.mp hj3]; exact Or.inl rfl
  | some b =>
    cases hd : env.datasets b.source_id with
    | none =>
      have htr : batch_process_task env req =
          initialJob :: { initialJob with status := "failed" } ::
            [{ initialJob with
                status := "failed",
                error := some ("Record-scoped dataset " ++ b.source_id ++ " not found.") }] := by
        simp only [batch_process_task, hfb, hd]
      rw [htr]
      refine ⟨?_, ?_, ?_⟩
      · rw [List.chain'_cons, List.chain'_cons]
        exact ⟨le_refl _, le_refl _, List.chain'_singleton _⟩
      · intro j hj hc
        rcases List.mem_cons.mp hj with h1 | hj2
        · subst h1
          exact absurd (show ("running" : String) = "completed" from hc) (by decide)
        rcases List.mem_cons.mp hj2 with h2 | hj3
        · subst h2
          exact absurd (show ("failed" : String) = "completed" from hc) (by decide)
        · rw [List.mem_singleton.mp hj3] at hc
          exact absurd (show ("failed" : String) = "completed" from hc) (by decide)
      · intro j hj
        rcases List.mem_cons.mp hj with h1 | hj2
        · subst h1; exact Or.inl rfl
        rcases List.mem_cons.mp hj2 with h2 | hj3
        · subst h2; exact Or.inl rfl
        · rw [List.mem_singleton.mp hj3]; exact Or.inl rfl
    | some records =>
      have htr : batch_process_task env req =
          initialJob :: { initialJob with total := records.length } ::
            batchLoop env req records 0 { initialJob with total := records.length } := by
        simp only [batch_process_task, hfb, hd]
      rw [htr]
      refine ⟨?_, ?_, ?_⟩
      · rw [List.chain'_cons']
        refine ⟨?_, ?_⟩
        · intro y hy
          have hy2 : ({ initialJob with total := records.length } : Job) = y := by
            simpa using Option.mem_def.mp hy
          subst hy2
          exact le_refl _
        · rw [List.chain'_cons']
          refine ⟨?_, batchLoop_chain env req records 0 _ rfl⟩
          intro y hy
          have hyp := batchLoop_head_progress env req records 0 _ y (Option.mem_def.mp hy)
          rw [hyp]
      · intro j hj hc
        rcases List.mem_cons.mp hj with h1 | hj2
        · subst h1
          exact absurd (show ("running" : String) = "completed" from hc) (by decide)
        rcases List.mem_cons.mp hj2 with h2 | h3
        · subst h2
          exact absurd (show ("running" : String) = "completed" from hc) (by decide)
        · exact (batchLoop_invariants env req records 0
            { initialJob with total := records.length } rfl rfl rfl
            (Nat.zero_add records.length).symm j h3).2 hc
      · intro j hj
        rcases List.mem_cons.mp hj with h1 | hj2
        · subst h1; exact Or.inl rfl
        rcases List.mem_cons.mp hj2 with h2 | h3
        · subst h2; exact Or.inl rfl
        · exact (batchLoop_invariants env req records 0
            { initialJob with total := records.length } rfl rfl rfl
            (Nat.zero_add records.length).symm j h3).1

/-- C8 witness: the progress invariants instantiated on the concrete
two-record batch. -/
theorem batch_progress_invariants_witness :
    List.Chain' (fun a b => a.progress ≤ b.progress)
      (batch_process_task envBatch reqBatch) :=
  (batch_progress_invariants envBatch reqBatch).1

/-- C9: the status query fails with the 404 JobNotFound error exactly
when the id is absent from the job store; the result query fails with
404 exactly when the id is absent, fails with the 400 JobNotComplete
error exactly when the job exists with a status other than completed,
and returns the stored results of a completed job. -/
theorem job_query_error_semantics (store : JobStore) (jid : String) :
    (get_job_status store jid = .error (.httpException 404 "Job not found") ↔
      alistGet store jid = none) ∧
    (get_job_result store jid = .error (.httpException 404 "Job not found") ↔
      alistGet store jid = none) ∧
    (get_job_result store jid = .error (.httpException 400 "Job is not yet complete.") ↔
      ∃ j, alistGet store jid = some j ∧ j.status ≠ "completed") ∧
    (∀ j, alistGet store jid = some j → j.status = "completed" →
      get_job_result store jid = .ok j.results) := by
  cases hget : alistGet store jid with
  | none =>
    refine ⟨?_, ?_, ?_, ?_⟩
    · simp [get_job_status, hget]
    · simp [get_job_result, hget]
    · simp [get_job_result, hget]
    · intro j hj
      exact absurd hj (by simp)
  | some j =>
    by_cases hc : j.status = "completed"
    · refine ⟨?_, ?_, ?_, ?_⟩
      · simp [get_job_status, hget]
      · simp [get_job_result, hget, hc]
      · simp [get_job_result, hget, hc]
      · intro j2 hj2 hc2
        obtain rfl : j = j2 := Option.some_inj.mp hj2
        simp [get_job_result, hget, hc2]
    · refine ⟨?_, ?_, ?_, ?_⟩
      · simp [get_job_status, hget]
      · simp [get_job_result, hget, hc]
      · simp [get_job_result, hget, hc]
      · intro j2 hj2 hc2
        obtain rfl : j = j2 := Option.some_inj.mp hj2
        exact absurd hc2 hc

/-- C9 witness: the completed job in storeW is returned by the result
query with its stored results. -/
theorem job_query_error_semantics_witness :
    get_job_result storeW "done" = .ok [] := by
  have h := (job_query_error_semantics storeW "done").2.2.2
    { status := "completed", progress := 1, total := 1, results := [], error := none }
    rfl rfl
  exact h

/-- C10: a parser spec of type structured without a pydantic_model,
or of type python without python_code, makes the dispatch of main.py
lines 387 to 408 fall through to the raw branch: the run behaves
exactly like a raw run, and in particular a successful completion
yields that completion text as both raw and parsed value. -/
theorem missing_parser_field_falls_back_to_raw (env : Env) (prompt mc pc t : String) :
    runParser env ⟨.structured, none, some pc⟩ prompt =
      runParser env ⟨.raw, none, none⟩ prompt ∧
    runParser env ⟨.python, some mc, none⟩ prompt =
      runParser env ⟨.raw, none, none⟩ prompt ∧
    (env.complete prompt = .ok t →
      runParser env ⟨.structured, none, some pc⟩ prompt = .ok (t, .str t)) := by
  refine ⟨rfl, ?_, ?_⟩
  · simp [runParser, strOptTruthy]
  · intro hc
    simp [runParser, strOptTruthy, rawBranch, hc]

/-- C10 witness: a structured spec with no pydantic_model on envSolo
behaves as a raw run returning the completion text ok. -/
theorem missing_parser_field_falls_back_to_raw_witness :
    runParser envSolo ⟨.structured, none, some "code"⟩ "p" = .ok ("ok", PyVal.str "ok") :=
  (missing_parser_field_falls_back_to_raw envSolo "p" "m" "code" "ok").2.2 rfl
